import Mathlib

/-!
# Verification of the `hrt` typed HTTP router core

This file gives a shallow embedding of the core of the `hrt` Go package
(the typed decode → invoke → encode pipeline) and proves properties of it:

* the HTTP-status-carrying error model (`error.go`:
  `HTTPError`, `ErrorHTTPStatus`, `WrapHTTPError`, `OverrideHTTPError`);
* the reflection-based struct field decoder
  (`internal/rfutil`: `SetPrimitiveFromString`, `EachStructField`;
  `decoder.go`: `urlDecoder.Decode`, `MethodDecoder.Decode`);
* the generic handler adapter (`handler.go`: `Handler.ServeHTTP`).

Go errors form unwrap chains; we model them as a small inductive type.
Only the dedicated `wrappedHTTPError` struct of the package implements the
`HTTPError` interface, so the embedding can identify "implements
`HTTPError`" with the `wrapped` constructor.  `errors.Wrap` of
github.com/pkg/errors (message plus cause, `Unwrap` returns the cause) is
the `wrapf` constructor; every other error is a leaf `base`.
-/

namespace Hrt

/-- A Go error value, as used by the package: either a leaf error
(`errors.New`, `strconv` errors, application errors), a
`pkg/errors.Wrap` layer adding a message around a cause, or the package's
own `wrappedHTTPError{code, err}` carrying an HTTP status code. -/
inductive GoError where
  | base (msg : String)
  | wrapf (msg : String) (cause : GoError)
  | wrapped (code : Nat) (cause : GoError)
  deriving DecidableEq, Repr

/-- `errors.As(err, &httpErr)` for the target interface `HTTPError`:
walk the unwrap chain outermost-first and return the first error value
that implements `HTTPError` (in this package, exactly the
`wrappedHTTPError` values, i.e. the `wrapped` constructor). -/
def findHTTPError : GoError → Option GoError
  | .wrapped code cause => some (.wrapped code cause)
  | .wrapf _ cause => findHTTPError cause
  | .base _ => none

/-- Whether the error value itself implements `HTTPError` (is a
`wrappedHTTPError`), before any unwrapping. -/
def isHTTPError : GoError → Bool
  | .wrapped _ _ => true
  | _ => false

/-- `wrappedHTTPError.HTTPStatus`, and `0` on the constructors that do not
implement `HTTPError` (never consulted there: callers go through
`findHTTPError` first). -/
def httpStatus : GoError → Nat
  | .wrapped code _ => code
  | _ => 0

/-- `errors.Unwrap`: the cause of a wrapping layer, `none` for a leaf. -/
def goUnwrap : GoError → Option GoError
  | .wrapped _ cause => some cause
  | .wrapf _ cause => some cause
  | .base _ => none

/-- `ErrorHTTPStatus(err, defaultCode)` from `error.go`: the status of the
first `HTTPError` in the unwrap chain, else `defaultCode`. -/
def ErrorHTTPStatus (err : GoError) (defaultCode : Nat) : Nat :=
  match findHTTPError err with
  | some httpErr => httpStatus httpErr
  | none => defaultCode

/-- `WrapHTTPError(code, err)` from `error.go`: if the unwrap chain of
`err` already holds an `HTTPError`, return that value as-is; otherwise
wrap `err` as `wrappedHTTPError{code, err}`. -/
def WrapHTTPError (code : Nat) (err : GoError) : GoError :=
  match findHTTPError err with
  | some httpErr => httpErr
  | none => .wrapped code err

/-- `NewHTTPError(code, str)` from `error.go`. -/
def NewHTTPError (code : Nat) (str : String) : GoError :=
  .wrapped code (.base str)

/-- `OverrideHTTPError(code, err)` from `error.go`: if the unwrap chain of
`err` holds an `HTTPError`, replace `err` by `errors.Unwrap` of that value
(its cause — the found value is always a `wrappedHTTPError`, which has a
cause), then attach the new code. -/
def OverrideHTTPError (code : Nat) (err : GoError) : GoError :=
  match findHTTPError err with
  | some httpErr => .wrapped code ((goUnwrap httpErr).getD err)
  | none => .wrapped code err

theorem findHTTPError_isHTTPError (err : GoError) (h : isHTTPError err = true) :
    findHTTPError err = some err := by
  cases err with
  | base msg => simp [isHTTPError] at h
  | wrapf msg cause => simp [isHTTPError] at h
  | wrapped code cause => simp [findHTTPError]

/-- C3: `WrapHTTPError` is idempotent with first-code-wins: an error that
already carries an HTTP status code is returned unchanged, and
`WrapHTTPError 400 (WrapHTTPError 500 err)` is 500-coded for an `err` that
carries no status code of its own. -/
theorem wrapHTTPError_first_code_wins (code : Nat) (err uncoded : GoError)
    (h : isHTTPError err = true) (h2 : findHTTPError uncoded = none) :
    WrapHTTPError code err = err ∧
    ErrorHTTPStatus (WrapHTTPError 400 (WrapHTTPError 500 uncoded)) 0 = 500 := by
  refine ⟨?_, ?_⟩
  · unfold WrapHTTPError
    rw [findHTTPError_isHTTPError err h]
  · unfold WrapHTTPError
    rw [h2]
    simp [ErrorHTTPStatus, findHTTPError, httpStatus]

theorem wrapHTTPError_first_code_wins_witness :
    WrapHTTPError 400 (GoError.wrapped 418 (.base "teapot"))
      = GoError.wrapped 418 (.base "teapot") ∧
    ErrorHTTPStatus (WrapHTTPError 400 (WrapHTTPError 500 (.base "oops"))) 0 = 500 :=
  wrapHTTPError_first_code_wins 400 (GoError.wrapped 418 (.base "teapot"))
    (.base "oops") rfl rfl

/-- C4: `OverrideHTTPError code err` always yields a `code`-coded error; if
`err` is already coded, the found `HTTPError` is unwrapped to its cause
and the new code attached to that cause (replace code, preserve cause, no
double wrapping); otherwise the code is attached to `err` directly.  In
particular `OverrideHTTPError 404 (WrapHTTPError 500 err)` is a 404-coded
error whose cause is the original `err`. -/
theorem overrideHTTPError_replaces_code (code c d : Nat)
    (anyErr uncoded cause : GoError) (h : findHTTPError uncoded = none) :
    ErrorHTTPStatus (OverrideHTTPError code anyErr) d = code ∧
    OverrideHTTPError code (.wrapped c cause) = .wrapped code cause ∧
    OverrideHTTPError code uncoded = .wrapped code uncoded ∧
    OverrideHTTPError 404 (WrapHTTPError 500 uncoded) = .wrapped 404 uncoded := by
  refine ⟨?_, ?_, ?_, ?_⟩
  · unfold OverrideHTTPError
    cases hf : findHTTPError anyErr with
    | none => simp [ErrorHTTPStatus, findHTTPError, httpStatus]
    | some httpErr => simp [ErrorHTTPStatus, findHTTPError, httpStatus]
  · simp [OverrideHTTPError, findHTTPError, goUnwrap]
  · unfold OverrideHTTPError
    rw [h]
  · unfold WrapHTTPError
    rw [h]
    simp [OverrideHTTPError, findHTTPError, goUnwrap]

theorem overrideHTTPError_replaces_code_witness :
    ErrorHTTPStatus (OverrideHTTPError 403 (.wrapf "m" (.base "y"))) 0 = 403 ∧
    OverrideHTTPError 403 (.wrapped 500 (.base "z")) = .wrapped 403 (.base "z") ∧
    OverrideHTTPError 403 (.base "x") = .wrapped 403 (.base "x") ∧
    OverrideHTTPError 404 (WrapHTTPError 500 (.base "x")) = .wrapped 404 (.base "x") :=
  overrideHTTPError_replaces_code 403 500 0 (.wrapf "m" (.base "y"))
    (.base "x") (.base "z") rfl

/-- C9: when the unwrap chain of `err` contains an `HTTPError` anywhere
(not only at the top), `WrapHTTPError code err` returns that inner
`HTTPError` value itself — discarding any non-coded wrapping layers around
it — and `ErrorHTTPStatus err d` returns that inner error's status code
rather than the default `d`. -/
theorem wrapHTTPError_discards_outer_layers (code c d : Nat)
    (err inner : GoError) (h : findHTTPError err = some (.wrapped c inner)) :
    WrapHTTPError code err = .wrapped c inner ∧ ErrorHTTPStatus err d = c := by
  unfold WrapHTTPError ErrorHTTPStatus
  rw [h]
  exact ⟨rfl, rfl⟩

theorem wrapHTTPError_discards_outer_layers_witness :
    WrapHTTPError 400 (GoError.wrapf "request failed" (.wrapped 503 (.base "down")))
      = GoError.wrapped 503 (.base "down") ∧
    ErrorHTTPStatus (GoError.wrapf "request failed" (.wrapped 503 (.base "down"))) 0
      = 503 :=
  wrapHTTPError_discards_outer_layers 400 503 0
    (.wrapf "request failed" (.wrapped 503 (.base "down"))) (.base "down") rfl

/-!
## The reflection utilities (`internal/rfutil/rfutil.go`)

`SetPrimitiveFromString` converts a string into a struct field slot of
string / signed int / unsigned int / float / bool type, optionally behind
one level of pointer.  Strings are parsed with Go's `strconv`; we model
`ParseInt`/`ParseUint` (base 10) and the decimal forms of `ParseFloat`
exactly on the syntax that matters, noting the simplifications in each
doc comment.  Types backed by `encoding.TextUnmarshaler` (e.g.
`time.Time`) are outside the modelled kinds.
-/

/-- ASCII lower-casing of one character (Go's case folding restricted to
ASCII, which is exact for the ASCII field names and parameter keys the
decoder deals in). -/
def foldChar (c : Char) : Char :=
  if 'A' ≤ c ∧ c ≤ 'Z' then Char.ofNat (c.toNat + 32) else c

/-- `strings.EqualFold`, restricted to ASCII folding. -/
def eqFold (a b : String) : Bool :=
  a.data.map foldChar == b.data.map foldChar

/-- Numeric value of a decimal digit character. -/
def digitToNat (c : Char) : Nat := c.toNat - 48

/-- The value of a non-empty all-digit character list, else `none`
(matching `strconv`'s base-10 digit scan: no signs, no underscores). -/
def digitsVal? : List Char → Option Nat
  | [] => none
  | cs =>
    if cs.all Char.isDigit then
      some (cs.foldl (fun n c => 10 * n + digitToNat c) 0)
    else none

/-- Strip an optional leading sign, returning (isNegative, rest). -/
def splitSign : List Char → Bool × List Char
  | '-' :: rest => (true, rest)
  | '+' :: rest => (false, rest)
  | cs => (false, cs)

/-- Simplified rendering of Go's `%q` used in `strconv` error messages. -/
def quoteGo (s : String) : String := "\"" ++ s ++ "\""

/-- `strconv.ParseInt(s, 10, bits)`: optional sign, then decimal digits;
the value must fit the signed `bits`-bit range.  The error string is the
`NumError.Error()` rendering. -/
def goParseInt (s : String) (bits : Nat) : Except String Int :=
  match s.data with
  | [] => .error ("strconv.ParseInt: parsing " ++ quoteGo s ++ ": invalid syntax")
  | c :: rest =>
    let sd := splitSign (c :: rest)
    match digitsVal? sd.2 with
    | none => .error ("strconv.ParseInt: parsing " ++ quoteGo s ++ ": invalid syntax")
    | some n =>
      let i : Int := if sd.1 then -(n : Int) else (n : Int)
      if -(2 ^ (bits - 1) : Int) ≤ i ∧ i < 2 ^ (bits - 1) then .ok i
      else .error ("strconv.ParseInt: parsing " ++ quoteGo s ++ ": value out of range")

/-- `strconv.ParseUint(s, 10, bits)`: decimal digits only (no sign
accepted); the value must fit the unsigned `bits`-bit range. -/
def goParseUint (s : String) (bits : Nat) : Except String Nat :=
  match digitsVal? s.data with
  | none => .error ("strconv.ParseUint: parsing " ++ quoteGo s ++ ": invalid syntax")
  | some n =>
    if n < 2 ^ bits then .ok n
    else .error ("strconv.ParseUint: parsing " ++ quoteGo s ++ ": value out of range")

/-- `strconv.ParseBool`: the exact literal set Go accepts.  The current
decoder never calls it (bool fields use the non-empty test instead); it
is the standard strict bool parse, which the package's earlier decoder
generation (`src/decoder.go`) used, and serves to state what "cannot be
parsed as bool" means. -/
def goParseBool (s : String) : Except String Bool :=
  if s = "1" ∨ s = "t" ∨ s = "T" ∨ s = "TRUE" ∨ s = "true" ∨ s = "True" then
    .ok true
  else if s = "0" ∨ s = "f" ∨ s = "F" ∨ s = "FALSE" ∨ s = "false" ∨ s = "False" then
    .ok false
  else .error ("strconv.ParseBool: parsing " ++ quoteGo s ++ ": invalid syntax")

/-- A parsed floating point value.  A finite value is kept exactly as the
decimal scaled integer `(if neg then −1 else 1) · mant · 10 ^ exp10`,
unnormalized; IEEE rounding is not observed by any property here. -/
inductive FloatVal where
  | finite (neg : Bool) (mant : Nat) (exp10 : Int)
  | inf (neg : Bool)
  | nan
  deriving DecidableEq, Repr

/-- The largest finite value of a `bits`-bit IEEE float, as a natural
number (both maxima are integers). -/
def maxFiniteN (bits : Nat) : Nat :=
  if bits = 32 then 340282346638528859811704183484516925440
  else 179769313486231570814527423731704356798070567525844996598917476803157260780028538760589558632766878171540458953514382464234321326889464182768467546703537516986049910576551282076245490090389328944075868508455133942304583236903222948165808559332123348274797826204144723168738177180919299881250404026184124858368

/-- Whether `mant · 10 ^ exp` exceeds the largest finite `bits`-bit
float, computed in integers. -/
def floatOutOfRange (bits : Nat) (mant : Nat) (exp : Int) : Bool :=
  if 0 ≤ exp then decide (maxFiniteN bits < mant * 10 ^ exp.toNat)
  else decide (maxFiniteN bits * 10 ^ (-exp).toNat < mant)

/-- Assemble a finite parse result `± mant · 10 ^ (exp − fracLen)` with
Go's out-of-range check. -/
def mkFloatFinite (s : String) (bits : Nat) (neg : Bool) (mant fracLen : Nat)
    (exp : Int) : Except String FloatVal :=
  if floatOutOfRange bits mant (exp - (fracLen : Int)) then
    .error ("strconv.ParseFloat: parsing " ++ quoteGo s ++ ": value out of range")
  else .ok (.finite neg mant (exp - (fracLen : Int)))

/-- `strconv.ParseFloat(s, bits)` on its decimal forms: `NaN`, optionally
signed `Inf`/`Infinity` (case-insensitive), or optional sign, decimal
digits with an optional dot, and an optional decimal exponent.  Hex float
literals, digit-separating underscores and the exact half-ULP overflow
threshold are not modelled; no property below depends on them. -/
def goParseFloat (s : String) (bits : Nat) : Except String FloatVal :=
  if eqFold s "nan" then .ok .nan
  else if eqFold s "inf" ∨ eqFold s "infinity" ∨
      eqFold s "+inf" ∨ eqFold s "+infinity" then .ok (.inf false)
  else if eqFold s "-inf" ∨ eqFold s "-infinity" then .ok (.inf true)
  else
    let sd := splitSign s.data
    let ip := sd.2.takeWhile Char.isDigit
    let r1 := sd.2.dropWhile Char.isDigit
    let fr : List Char × List Char :=
      match r1 with
      | '.' :: rest => (rest.takeWhile Char.isDigit, rest.dropWhile Char.isDigit)
      | _ => ([], r1)
    if ip.isEmpty ∧ fr.1.isEmpty then
      .error ("strconv.ParseFloat: parsing " ++ quoteGo s ++ ": invalid syntax")
    else
      let mant := (ip ++ fr.1).foldl (fun n c => 10 * n + digitToNat c) 0
      match fr.2 with
      | [] => mkFloatFinite s bits sd.1 mant fr.1.length 0
      | e :: rest =>
        if e = 'e' ∨ e = 'E' then
          let esd := splitSign rest
          match digitsVal? esd.2 with
          | none =>
            .error ("strconv.ParseFloat: parsing " ++ quoteGo s ++ ": invalid syntax")
          | some ev =>
            mkFloatFinite s bits sd.1 mant fr.1.length
              (if esd.1 then -(ev : Int) else (ev : Int))
        else .error ("strconv.ParseFloat: parsing " ++ quoteGo s ++ ": invalid syntax")

/-- The field kinds handled by `SetPrimitiveFromString`'s switch: string,
signed/unsigned integers and floats of the reflected bit width, and bool. -/
inductive PrimKind where
  | kstr
  | kint (bits : Nat)
  | kuint (bits : Nat)
  | kfloat (bits : Nat)
  | kbool
  deriving DecidableEq, Repr

/-- A primitive Go value held in a struct field slot. -/
inductive PrimValue where
  | vstr (s : String)
  | vint (i : Int)
  | vuint (n : Nat)
  | vfloat (f : FloatVal)
  | vbool (b : Bool)
  deriving DecidableEq, Repr

/-- The Go zero value of each primitive kind. -/
def zeroPrim : PrimKind → PrimValue
  | .kstr => .vstr ""
  | .kint _ => .vint 0
  | .kuint _ => .vuint 0
  | .kfloat _ => .vfloat (.finite false 0 0)
  | .kbool => .vbool false

/-- The reflected type of a struct field: a primitive kind, optionally
behind one level of pointer (`reflect.Ptr`). -/
structure FieldType where
  isPtr : Bool
  kind : PrimKind
  deriving DecidableEq, Repr

/-- The runtime contents of a struct field slot: a primitive value, or a
pointer that is nil (`none`) or points at a primitive value. -/
inductive FieldValue where
  | prim (v : PrimValue)
  | ptr (v : Option PrimValue)
  deriving DecidableEq, Repr

/-- The Go zero value of a field: zero primitive, or nil pointer. -/
def zeroValue (ft : FieldType) : FieldValue :=
  if ft.isPtr then .ptr none else .prim (zeroPrim ft.kind)

/-- The kind switch of `SetPrimitiveFromString` (rfutil.go:30-63), acting
on the slot contents `old` (which Go leaves untouched when a parse
fails).  Each parse failure is wrapped by `errors.Wrap` with the message
naming the offending kind.  The bool case is Go's
`rv.SetBool(s != "")`: no parsing, non-empty means true. -/
def convertPrimFromString (k : PrimKind) (old : PrimValue) (s : String) :
    PrimValue × Option GoError :=
  match k with
  | .kstr => (.vstr s, none)
  | .kint bits =>
    match goParseInt s bits with
    | .ok i => (.vint i, none)
    | .error e => (old, some (.wrapf "invalid int" (.base e)))
  | .kuint bits =>
    match goParseUint s bits with
    | .ok n => (.vuint n, none)
    | .error e => (old, some (.wrapf "invalid uint" (.base e)))
  | .kfloat bits =>
    match goParseFloat s bits with
    | .ok f => (.vfloat f, none)
    | .error e => (old, some (.wrapf "invalid float" (.base e)))
  | .kbool => (.vbool (s != ""), none)

/-- `SetPrimitiveFromString(rf, rv, s)` from rfutil.go, returning the
field slot after the call together with the returned error.  An empty `s`
returns at once with the slot untouched.  A pointer field first gets a
freshly allocated zero pointee (`reflect.New`) — note Go performs this
allocation before the parse, so on a parse failure the pointer already
points at a zero value.  The `.ptr` slot under a non-pointer type is
unreachable when the slot matches its reflected type, as Go reflection
guarantees. -/
def SetPrimitiveFromString (ft : FieldType) (cur : FieldValue) (s : String) :
    FieldValue × Option GoError :=
  if s = "" then (cur, none)
  else if ft.isPtr then
    let r := convertPrimFromString ft.kind (zeroPrim ft.kind) s
    (.ptr (some r.1), r.2)
  else
    match cur with
    | .prim old =>
      let r := convertPrimFromString ft.kind old s
      (.prim r.1, r.2)
    | .ptr o => (.ptr o, none)

example : goParseInt "42" 64 = .ok 42 := rfl
example : goParseInt "-128" 8 = .ok (-128) := rfl
example : goParseInt "128" 8 =
    .error "strconv.ParseInt: parsing \"128\": value out of range" := rfl
example : goParseInt "12a" 64 =
    .error "strconv.ParseInt: parsing \"12a\": invalid syntax" := rfl
example : goParseUint "-1" 64 =
    .error "strconv.ParseUint: parsing \"-1\": invalid syntax" := rfl
example : goParseFloat "3.14" 64 = .ok (.finite false 314 (-2)) := rfl
example : goParseFloat "-2e3" 64 = .ok (.finite true 2 3) := rfl
example : goParseFloat "abc" 64 =
    .error "strconv.ParseFloat: parsing \"abc\": invalid syntax" := rfl
example : goParseFloat "Inf" 64 = .ok (.inf false) := rfl

/-- C5: a bool field set from any non-empty string (including `"false"`)
becomes true, and an empty/absent value leaves the field untouched at
false. -/
theorem bool_field_nonempty_means_true (s : String) (b : Bool)
    (cur : FieldValue) (h : s ≠ "") :
    SetPrimitiveFromString ⟨false, .kbool⟩ (.prim (.vbool b)) s
      = (.prim (.vbool true), none) ∧
    SetPrimitiveFromString ⟨false, .kbool⟩ cur "" = (cur, none) := by
  constructor
  · simp [SetPrimitiveFromString, convertPrimFromString, h, bne]
  · simp [SetPrimitiveFromString]

theorem bool_field_nonempty_means_true_witness :
    SetPrimitiveFromString ⟨false, .kbool⟩ (.prim (.vbool false)) "false"
      = (.prim (.vbool true), none) ∧
    SetPrimitiveFromString ⟨false, .kbool⟩ (.prim (.vbool false)) ""
      = (.prim (.vbool false), none) :=
  ⟨(bool_field_nonempty_means_true "false" false (.prim (.vbool false))
      (by decide)).1,
   (bool_field_nonempty_means_true "false" false (.prim (.vbool false))
      (by decide)).2⟩

/-- C6 counterexample: the string `"notabool"` cannot be parsed as a bool
(Go's strict `strconv.ParseBool` rejects it), yet decoding it into a bool
field raises no error at all — the field is simply set to true.  Bool
fields therefore never produce the claimed "bool parse failure". -/
theorem bool_parse_failure_never_raised :
    goParseBool "notabool"
      = .error "strconv.ParseBool: parsing \"notabool\": invalid syntax" ∧
    SetPrimitiveFromString ⟨false, .kbool⟩ (.prim (.vbool false)) "notabool"
      = (.prim (.vbool true), none) :=
  ⟨rfl, rfl⟩

/-- C6 (amended): for int, uint and float fields, a non-empty string that
the respective `strconv` parse rejects makes the decode fail with an
error identifying the offending kind and wrapping the underlying parse
error; bool fields never fail — any non-empty string sets them true. -/
theorem unparsable_numeric_string_fails (bits : Nat) (s e : String)
    (old : PrimValue) (hs : s ≠ "") :
    (goParseInt s bits = .error e →
      SetPrimitiveFromString ⟨false, .kint bits⟩ (.prim old) s
        = (.prim old, some (.wrapf "invalid int" (.base e)))) ∧
    (goParseUint s bits = .error e →
      SetPrimitiveFromString ⟨false, .kuint bits⟩ (.prim old) s
        = (.prim old, some (.wrapf "invalid uint" (.base e)))) ∧
    (goParseFloat s bits = .error e →
      SetPrimitiveFromString ⟨false, .kfloat bits⟩ (.prim old) s
        = (.prim old, some (.wrapf "invalid float" (.base e)))) ∧
    SetPrimitiveFromString ⟨false, .kbool⟩ (.prim old) s
      = (.prim (.vbool true), none) := by
  refine ⟨fun h => ?_, fun h => ?_, fun h => ?_, ?_⟩
  · simp [SetPrimitiveFromString, convertPrimFromString, hs, h]
  · simp [SetPrimitiveFromString, convertPrimFromString, hs, h]
  · simp [SetPrimitiveFromString, convertPrimFromString, hs, h]
  · simp [SetPrimitiveFromString, convertPrimFromString, hs, bne]

theorem unparsable_numeric_string_fails_witness :
    SetPrimitiveFromString ⟨false, .kint 64⟩ (.prim (.vint 7)) "abc"
      = (.prim (.vint 7), some (.wrapf "invalid int"
          (.base "strconv.ParseInt: parsing \"abc\": invalid syntax"))) ∧
    SetPrimitiveFromString ⟨false, .kuint 64⟩ (.prim (.vuint 7)) "abc"
      = (.prim (.vuint 7), some (.wrapf "invalid uint"
          (.base "strconv.ParseUint: parsing \"abc\": invalid syntax"))) ∧
    SetPrimitiveFromString ⟨false, .kfloat 64⟩ (.prim (.vfloat (.finite false 0 0))) "abc"
      = (.prim (.vfloat (.finite false 0 0)), some (.wrapf "invalid float"
          (.base "strconv.ParseFloat: parsing \"abc\": invalid syntax"))) ∧
    SetPrimitiveFromString ⟨false, .kbool⟩ (.prim (.vbool false)) "abc"
      = (.prim (.vbool true), none) :=
  ⟨(unparsable_numeric_string_fails 64 "abc" _ (.vint 7) (by decide)).1 rfl,
   (unparsable_numeric_string_fails 64 "abc" _ (.vuint 7) (by decide)).2.1 rfl,
   (unparsable_numeric_string_fails 64 "abc" _ (.vfloat (.finite false 0 0))
      (by decide)).2.2.1 rfl,
   (unparsable_numeric_string_fails 64 "abc"
      "strconv.ParseInt: parsing \"abc\": invalid syntax" (.vbool false)
      (by decide)).2.2.2⟩

/-- C8: for a pointer-typed field, an absent (empty) value leaves the
slot — in particular a nil pointer — untouched, while a present non-empty
value whose conversion succeeds replaces the slot by a pointer to a fresh
pointee holding the converted value, regardless of the slot's previous
contents. -/
theorem pointer_field_allocates (k : PrimKind) (cur : FieldValue)
    (s : String) (v : PrimValue) (hs : s ≠ "")
    (hconv : convertPrimFromString k (zeroPrim k) s = (v, none)) :
    SetPrimitiveFromString ⟨true, k⟩ cur "" = (cur, none) ∧
    SetPrimitiveFromString ⟨true, k⟩ cur s = (.ptr (some v), none) := by
  constructor
  · simp [SetPrimitiveFromString]
  · simp [SetPrimitiveFromString, hs, hconv]

theorem pointer_field_allocates_witness :
    SetPrimitiveFromString ⟨true, .kint 64⟩ (.ptr none) "" = (.ptr none, none) ∧
    SetPrimitiveFromString ⟨true, .kint 64⟩ (.ptr none) "42"
      = (.ptr (some (.vint 42)), none) :=
  ⟨(pointer_field_allocates (.kint 64) (.ptr none) "42" (.vint 42)
      (by decide) rfl).1,
   (pointer_field_allocates (.kint 64) (.ptr none) "42" (.vint 42)
      (by decide) rfl).2⟩

/-!
## The URL decoder (`decoder.go`)

`urlDecoder.Decode` walks the destination struct's exported fields with
`rfutil.EachStructField` and resolves each field from chi URL parameters
and HTTP form values according to its struct tags.  The request is
modelled by what the decoder observes: the method, chi's route
parameters (absent when there is no chi route context), and the parsed
form.  Go iterates `r.Form` (a map) in unspecified order; the
association list order stands in for one such order, and `r.FormValue`'s
implicit parse trigger is a no-op here since the form is held
pre-parsed.
-/

/-- An HTTP request as the decoder observes it. -/
structure Request where
  method : String
  /-- chi `RouteContext` URL parameters, `none` when the request has no
  chi route context. -/
  route : Option (List (String × String))
  /-- The parsed form `r.Form`; repeated keys model a key with several
  values, first value first. -/
  form : List (String × String)

/-- `chi.URLParam(r, key)`: nothing without a route context; chi's
`RouteParams.Get` scans the parameters backwards, so the most recently
set exact-match key wins. -/
def chiURLParam (r : Request) (key : String) : String :=
  match r.route with
  | none => ""
  | some ps => ((ps.reverse.find? (fun p => p.1 == key)).map Prod.snd).getD ""

/-- `r.FormValue(key)`: the first form value under `key`, `""` if none. -/
def formValue (r : Request) (key : String) : String :=
  ((r.form.find? (fun p => p.1 == key)).map Prod.snd).getD ""

/-- A reflected struct field: name, struct tags, exportedness, type. -/
structure StructField where
  name : String
  tags : List (String × String)
  exported : Bool
  type : FieldType

/-- `reflect.StructTag.Get`: the tag value under `key`, `""` if absent. -/
def tagGet (f : StructField) (key : String) : String :=
  ((f.tags.find? (fun p => p.1 == key)).map Prod.snd).getD ""

/-- The loop over the `form`, `query` and `schema` tag keys: the first of
the given tag keys carrying a non-empty value. -/
def firstNonemptyTag (f : StructField) : List String → Option String
  | [] => none
  | t :: rest =>
    if tagGet f t ≠ "" then some (tagGet f t) else firstNonemptyTag f rest

/-- First value in a key/value list whose key matches `name`
case-insensitively (`strings.EqualFold`). -/
def findFoldParam (ps : List (String × String)) (name : String) : Option String :=
  (ps.find? (fun p => eqFold p.1 name)).map Prod.snd

/-- The tail of the field closure in `urlDecoder.Decode`: search the
parsed form keys case-insensitively by field name; an unmatched field is
returned untouched with no error. -/
def decodeFieldFormSearch (r : Request) (rft : StructField)
    (rfv : FieldValue) : FieldValue × Option GoError :=
  match findFoldParam r.form rft.name with
  | some v => SetPrimitiveFromString rft.type rfv v
  | none => (rfv, none)

/-- The per-field closure of `urlDecoder.Decode` (decoder.go:68-111):
form/query/schema tags read a form value and stop; then a `url` tag reads
a chi URL parameter; then a `json` tag tries the URL parameter and falls
back to the form value; an untagged field is searched case-insensitively
in the route's URL parameters (when a route context exists) and then in
the form. -/
def decodeField (r : Request) (rft : StructField) (rfv : FieldValue) :
    FieldValue × Option GoError :=
  match firstNonemptyTag rft ["form", "query", "schema"] with
  | some tagValue => SetPrimitiveFromString rft.type rfv (formValue r tagValue)
  | none =>
    if tagGet rft "url" ≠ "" then
      SetPrimitiveFromString rft.type rfv (chiURLParam r (tagGet rft "url"))
    else if tagGet rft "json" ≠ "" then
      let v0 := chiURLParam r (tagGet rft "json")
      let v := if v0 = "" then formValue r (tagGet rft "json") else v0
      SetPrimitiveFromString rft.type rfv v
    else
      match r.route with
      | some ps =>
        match findFoldParam ps rft.name with
        | some v => SetPrimitiveFromString rft.type rfv v
        | none => decodeFieldFormSearch r rft rfv
      | none => decodeFieldFormSearch r rft rfv

/-- `rfutil.EachStructField` (rfutil.go:76-102) applied to a struct held
as a list of (field, slot) pairs: visit the fields in declaration order,
skipping unexported ones, stopping at the first error.  The result pairs
the struct contents after the walk with the returned error.  (The
invalid-target and non-struct errors of the Go function do not arise
here: the model takes the struct's fields directly.) -/
def eachStructFieldGo
    (f : StructField → FieldValue → FieldValue × Option GoError) :
    List (StructField × FieldValue) →
      List (StructField × FieldValue) × Option GoError
  | [] => ([], none)
  | (ft, v) :: rest =>
    if ft.exported then
      match f ft v with
      | (v2, some e) => ((ft, v2) :: rest, some e)
      | (v2, none) =>
        ((ft, v2) :: (eachStructFieldGo f rest).1, (eachStructFieldGo f rest).2)
    else
      ((ft, v) :: (eachStructFieldGo f rest).1, (eachStructFieldGo f rest).2)

/-- `urlDecoder.Decode` (decoder.go:68-111). -/
def urlDecode (r : Request) (fields : List (StructField × FieldValue)) :
    List (StructField × FieldValue) × Option GoError :=
  eachStructFieldGo (decodeField r) fields

/-- The `Decoder` interface, extensionally: a decoder transforms the
destination struct and may fail. -/
abbrev DecoderFun := Request → List (StructField × FieldValue) →
  List (StructField × FieldValue) × Option GoError

/-- `MethodDecoder`: a Go map from HTTP method name (or `"*"`) to a
decoder, with unique keys. -/
abbrev MethodDecoder := List (String × DecoderFun)

/-- Go map indexing `e[key]` on a `MethodDecoder`. -/
def lookupDecoder (m : MethodDecoder) (key : String) : Option DecoderFun :=
  (m.find? (fun p => p.1 == key)).map Prod.snd

/-- `MethodDecoder.Decode` (decoder.go:24-33): the decoder under the
request's method, else the wildcard decoder, else a 405-coded failure. -/
def methodDecoderDecode (m : MethodDecoder) (r : Request)
    (v : List (StructField × FieldValue)) :
    List (StructField × FieldValue) × Option GoError :=
  match lookupDecoder m r.method with
  | some dec => dec r v
  | none =>
    match lookupDecoder m "*" with
    | some dec => dec r v
    | none => (v, some (WrapHTTPError 405 (.base "method not allowed")))

/-- C1: source resolution priority of the URL decoder for one struct
field.  A form/query/schema tag reads the form value under the tag name
and stops — even when that value is empty, the other sources are never
consulted, and the field (at its zero value on entry) is left untouched
with no error.  Otherwise a `url` tag reads the chi URL parameter under
the tag name.  Otherwise a `json` tag tries the URL parameter, then the
form value.  Otherwise the field name is searched case-insensitively
among the URL parameters and then the form keys; when nothing matches,
the field is left untouched and no error is raised. -/
theorem urlDecoder_field_priority (r : Request) (rft : StructField)
    (rfv : FieldValue) (t : String) :
    (firstNonemptyTag rft ["form", "query", "schema"] = some t →
      decodeField r rft rfv
          = SetPrimitiveFromString rft.type rfv (formValue r t) ∧
      (formValue r t = "" → decodeField r rft rfv = (rfv, none))) ∧
    (firstNonemptyTag rft ["form", "query", "schema"] = none →
      tagGet rft "url" = t → t ≠ "" →
      decodeField r rft rfv
        = SetPrimitiveFromString rft.type rfv (chiURLParam r t)) ∧
    (firstNonemptyTag rft ["form", "query", "schema"] = none →
      tagGet rft "url" = "" → tagGet rft "json" = t → t ≠ "" →
      decodeField r rft rfv = SetPrimitiveFromString rft.type rfv
        (if chiURLParam r t = "" then formValue r t else chiURLParam r t)) ∧
    (firstNonemptyTag rft ["form", "query", "schema"] = none →
      tagGet rft "url" = "" → tagGet rft "json" = "" →
      decodeField r rft rfv =
        match r.route.bind (fun ps => findFoldParam ps rft.name) with
        | some v => SetPrimitiveFromString rft.type rfv v
        | none =>
          match findFoldParam r.form rft.name with
          | some v => SetPrimitiveFromString rft.type rfv v
          | none => (rfv, none)) := by
  refine ⟨fun h => ⟨?_, fun hv => ?_⟩, fun h h2 h3 => ?_,
    fun h h2 h3 h4 => ?_, fun h h2 h3 => ?_⟩
  · simp [decodeField, h]
  · simp [decodeField, h, hv, SetPrimitiveFromString]
  · simp [decodeField, h, h2, h3]
  · simp [decodeField, h, h2, h3, h4]
  · cases hr : r.route with
    | none => simp [decodeField, h, h2, h3, hr, decodeFieldFormSearch]
    | some ps =>
      cases hp : findFoldParam ps rft.name with
      | none => simp [decodeField, h, h2, h3, hr, hp, decodeFieldFormSearch]
      | some v => simp [decodeField, h, h2, h3, hr, hp]

theorem urlDecoder_field_priority_witness :
    decodeField ⟨"GET", some [("b", "URLB"), ("id", "7"), ("name", "N1")],
        [("a", "x"), ("q", "z"), ("city", "C")]⟩
      ⟨"A", [("form", "a")], true, ⟨false, .kstr⟩⟩ (.prim (.vstr ""))
      = (.prim (.vstr "x"), none) ∧
    decodeField ⟨"GET", some [("b", "URLB"), ("id", "7"), ("name", "N1")],
        [("a", "x"), ("q", "z"), ("city", "C")]⟩
      ⟨"B", [("form", "b")], true, ⟨false, .kstr⟩⟩ (.prim (.vstr ""))
      = (.prim (.vstr ""), none) ∧
    decodeField ⟨"GET", some [("b", "URLB"), ("id", "7"), ("name", "N1")],
        [("a", "x"), ("q", "z"), ("city", "C")]⟩
      ⟨"U", [("url", "id")], true, ⟨false, .kstr⟩⟩ (.prim (.vstr ""))
      = (.prim (.vstr "7"), none) ∧
    decodeField ⟨"GET", some [("b", "URLB"), ("id", "7"), ("name", "N1")],
        [("a", "x"), ("q", "z"), ("city", "C")]⟩
      ⟨"J", [("json", "q")], true, ⟨false, .kstr⟩⟩ (.prim (.vstr ""))
      = (.prim (.vstr "z"), none) ∧
    decodeField ⟨"GET", some [("b", "URLB"), ("id", "7"), ("name", "N1")],
        [("a", "x"), ("q", "z"), ("city", "C")]⟩
      ⟨"Name", [], true, ⟨false, .kstr⟩⟩ (.prim (.vstr ""))
      = (.prim (.vstr "N1"), none) ∧
    decodeField ⟨"GET", some [("b", "URLB"), ("id", "7"), ("name", "N1")],
        [("a", "x"), ("q", "z"), ("city", "C")]⟩
      ⟨"City", [], true, ⟨false, .kstr⟩⟩ (.prim (.vstr ""))
      = (.prim (.vstr "C"), none) ∧
    decodeField ⟨"GET", some [("b", "URLB"), ("id", "7"), ("name", "N1")],
        [("a", "x"), ("q", "z"), ("city", "C")]⟩
      ⟨"Zip", [], true, ⟨false, .kstr⟩⟩ (.prim (.vstr ""))
      = (.prim (.vstr ""), none) :=
  ⟨((urlDecoder_field_priority ⟨"GET", some [("b", "URLB"), ("id", "7"), ("name", "N1")],
        [("a", "x"), ("q", "z"), ("city", "C")]⟩
      ⟨"A", [("form", "a")], true, ⟨false, .kstr⟩⟩ (.prim (.vstr "")) "a").1 rfl).1.trans rfl,
   ((urlDecoder_field_priority ⟨"GET", some [("b", "URLB"), ("id", "7"), ("name", "N1")],
        [("a", "x"), ("q", "z"), ("city", "C")]⟩
      ⟨"B", [("form", "b")], true, ⟨false, .kstr⟩⟩ (.prim (.vstr "")) "b").1 rfl).2 rfl,
   ((urlDecoder_field_priority ⟨"GET", some [("b", "URLB"), ("id", "7"), ("name", "N1")],
        [("a", "x"), ("q", "z"), ("city", "C")]⟩
      ⟨"U", [("url", "id")], true, ⟨false, .kstr⟩⟩ (.prim (.vstr "")) "id").2.1 rfl rfl
      (by decide)).trans rfl,
   ((urlDecoder_field_priority ⟨"GET", some [("b", "URLB"), ("id", "7"), ("name", "N1")],
        [("a", "x"), ("q", "z"), ("city", "C")]⟩
      ⟨"J", [("json", "q")], true, ⟨false, .kstr⟩⟩ (.prim (.vstr "")) "q").2.2.1 rfl rfl rfl
      (by decide)).trans rfl,
   ((urlDecoder_field_priority ⟨"GET", some [("b", "URLB"), ("id", "7"), ("name", "N1")],
        [("a", "x"), ("q", "z"), ("city", "C")]⟩
      ⟨"Name", [], true, ⟨false, .kstr⟩⟩ (.prim (.vstr "")) "").2.2.2 rfl rfl rfl).trans rfl,
   ((urlDecoder_field_priority ⟨"GET", some [("b", "URLB"), ("id", "7"), ("name", "N1")],
        [("a", "x"), ("q", "z"), ("city", "C")]⟩
      ⟨"City", [], true, ⟨false, .kstr⟩⟩ (.prim (.vstr "")) "").2.2.2 rfl rfl rfl).trans rfl,
   ((urlDecoder_field_priority ⟨"GET", some [("b", "URLB"), ("id", "7"), ("name", "N1")],
        [("a", "x"), ("q", "z"), ("city", "C")]⟩
      ⟨"Zip", [], true, ⟨false, .kstr⟩⟩ (.prim (.vstr "")) "").2.2.2 rfl rfl rfl).trans rfl⟩

/-- C7: `MethodDecoder.Decode` delegates to the decoder registered under
the request's method; absent that, to the wildcard decoder under `"*"`;
absent both, it fails with an HTTP-405-coded "method not allowed" error
without touching the destination. -/
theorem methodDecoder_dispatch (m : MethodDecoder) (r : Request)
    (v : List (StructField × FieldValue)) (dec wild : DecoderFun) :
    (lookupDecoder m r.method = some dec →
      methodDecoderDecode m r v = dec r v) ∧
    (lookupDecoder m r.method = none → lookupDecoder m "*" = some wild →
      methodDecoderDecode m r v = wild r v) ∧
    (lookupDecoder m r.method = none → lookupDecoder m "*" = none →
      methodDecoderDecode m r v
          = (v, some (.wrapped 405 (.base "method not allowed"))) ∧
      ErrorHTTPStatus (.wrapped 405 (.base "method not allowed")) 0 = 405) := by
  refine ⟨fun h => ?_, fun h h2 => ?_, fun h h2 => ⟨?_, rfl⟩⟩
  · simp [methodDecoderDecode, h]
  · simp [methodDecoderDecode, h, h2]
  · simp [methodDecoderDecode, h, h2, WrapHTTPError, findHTTPError]

theorem methodDecoder_dispatch_witness :
    methodDecoderDecode [("GET", fun _ v => (v, none))] ⟨"GET", none, []⟩ []
      = ([], none) ∧
    methodDecoderDecode [("*", fun _ _ => ([], some (.base "wild")))]
      ⟨"PUT", none, []⟩ [] = ([], some (.base "wild")) ∧
    methodDecoderDecode [("POST", fun _ v => (v, none))] ⟨"DELETE", none, []⟩ []
      = ([], some (.wrapped 405 (.base "method not allowed"))) ∧
    ErrorHTTPStatus (.wrapped 405 (.base "method not allowed")) 0 = 405 := by
  refine ⟨?_, ?_, ?_, ?_⟩
  · exact ((methodDecoder_dispatch [("GET", fun _ v => (v, none))]
      ⟨"GET", none, []⟩ [] (fun _ v => (v, none)) (fun _ v => (v, none))).1
        rfl).trans rfl
  · exact ((methodDecoder_dispatch [("*", fun _ _ => ([], some (.base "wild")))]
      ⟨"PUT", none, []⟩ [] (fun _ v => (v, none))
      (fun _ _ => ([], some (.base "wild")))).2.1 rfl rfl).trans rfl
  · exact ((methodDecoder_dispatch [("POST", fun _ v => (v, none))]
      ⟨"DELETE", none, []⟩ [] (fun _ v => (v, none))
      (fun _ v => (v, none))).2.2 rfl rfl).1
  · exact ((methodDecoder_dispatch [("POST", fun _ v => (v, none))]
      ⟨"DELETE", none, []⟩ [] (fun _ v => (v, none))
      (fun _ v => (v, none))).2.2 rfl rfl).2

/-- One successfully processed field: the field descriptor is unchanged;
an exported slot holds the result of a successful `f`, an unexported slot
is untouched. -/
def FieldProcessed
    (f : StructField → FieldValue → FieldValue × Option GoError)
    (a b : StructField × FieldValue) : Prop :=
  b.1 = a.1 ∧
  ((a.1.exported = true ∧ f a.1 a.2 = (b.2, none)) ∨
   (a.1.exported = false ∧ b.2 = a.2))

theorem eachStructField_abort
    (f : StructField → FieldValue → FieldValue × Option GoError) :
    ∀ (fields out : List (StructField × FieldValue)) (e : GoError),
      eachStructFieldGo f fields = (out, some e) →
      ∃ pre pre2 ft v v2 post,
        fields = pre ++ (ft, v) :: post ∧
        out = pre2 ++ (ft, v2) :: post ∧
        List.Forall₂ (FieldProcessed f) pre pre2 ∧
        ft.exported = true ∧
        f ft v = (v2, some e) := by
  intro fields
  induction fields with
  | nil =>
    intro out e h
    simp [eachStructFieldGo] at h
  | cons hd rest ih =>
    obtain ⟨ft, v⟩ := hd
    intro out e h
    rw [eachStructFieldGo] at h
    by_cases hexp : ft.exported = true
    · rw [if_pos hexp] at h
      rcases hfv : f ft v with ⟨v2, oe⟩
      rw [hfv] at h
      cases oe with
      | some e0 =>
        obtain ⟨ho, he⟩ := Prod.mk.injEq .. ▸ h
        refine ⟨[], [], ft, v, v2, rest, rfl, ho.symm, .nil, hexp, ?_⟩
        rw [hfv]
        cases he
        rfl
      | none =>
        rcases hr : eachStructFieldGo f rest with ⟨out2, oe2⟩
        rw [hr] at h
        obtain ⟨ho, he⟩ := Prod.mk.injEq .. ▸ h
        have he2 : oe2 = some e := he
        obtain ⟨pre, pre2, ft0, v0, v02, post, hfields, hout, hall, hex0, hf0⟩ :=
          ih out2 e (by rw [hr, he2])
        refine ⟨(ft, v) :: pre, (ft, v2) :: pre2, ft0, v0, v02, post, ?_, ?_, ?_, hex0, hf0⟩
        · simp [hfields]
        · simp [← ho, hout]
        · exact .cons ⟨rfl, Or.inl ⟨hexp, hfv⟩⟩ hall
    · rw [if_neg hexp] at h
      rcases hr : eachStructFieldGo f rest with ⟨out2, oe2⟩
      rw [hr] at h
      obtain ⟨ho, he⟩ := Prod.mk.injEq .. ▸ h
      have he2 : oe2 = some e := he
      obtain ⟨pre, pre2, ft0, v0, v02, post, hfields, hout, hall, hex0, hf0⟩ :=
        ih out2 e (by rw [hr, he2])
      refine ⟨(ft, v) :: pre, (ft, v) :: pre2, ft0, v0, v02, post, ?_, ?_, ?_, hex0, hf0⟩
      · simp [hfields]
      · simp [← ho, hout]
      · exact .cons ⟨rfl, Or.inr ⟨Bool.not_eq_true _ ▸ hexp, rfl⟩⟩ hall

/-- C10: decoding with the URL decoder is not atomic on failure.  When
the walk returns an error, the struct splits at the failing exported
field: every field before it has already been processed (exported fields
hold their decoded value, unexported ones are untouched), the failing
field holds whatever the failed conversion left in it, and every field
after it is untouched. -/
theorem urlDecoder_not_atomic (r : Request)
    (fields out : List (StructField × FieldValue)) (e : GoError)
    (h : urlDecode r fields = (out, some e)) :
    ∃ pre pre2 ft v v2 post,
      fields = pre ++ (ft, v) :: post ∧
      out = pre2 ++ (ft, v2) :: post ∧
      List.Forall₂ (FieldProcessed (decodeField r)) pre pre2 ∧
      ft.exported = true ∧
      decodeField r ft v = (v2, some e) :=
  eachStructField_abort (decodeField r) fields out e h

theorem urlDecoder_not_atomic_witness :
    ∃ pre pre2 ft v v2 post,
      [(⟨"A", [("form", "a")], true, ⟨false, .kstr⟩⟩, .prim (.vstr "")),
       (⟨"B", [("form", "b")], true, ⟨false, .kint 64⟩⟩, .prim (.vint 0)),
       (⟨"C", [("form", "c")], true, ⟨false, .kstr⟩⟩, .prim (.vstr ""))]
        = pre ++ (ft, v) :: post ∧
      [(⟨"A", [("form", "a")], true, ⟨false, .kstr⟩⟩, .prim (.vstr "x")),
       (⟨"B", [("form", "b")], true, ⟨false, .kint 64⟩⟩, .prim (.vint 0)),
       (⟨"C", [("form", "c")], true, ⟨false, .kstr⟩⟩, .prim (.vstr ""))]
        = pre2 ++ (ft, v2) :: post ∧
      List.Forall₂
        (FieldProcessed
          (decodeField ⟨"GET", none, [("a", "x"), ("b", "zz"), ("c", "y")]⟩))
        pre pre2 ∧
      ft.exported = true ∧
      decodeField ⟨"GET", none, [("a", "x"), ("b", "zz"), ("c", "y")]⟩ ft v
        = (v2, some (.wrapf "invalid int"
            (.base "strconv.ParseInt: parsing \"zz\": invalid syntax"))) :=
  urlDecoder_not_atomic ⟨"GET", none, [("a", "x"), ("b", "zz"), ("c", "y")]⟩
    [(⟨"A", [("form", "a")], true, ⟨false, .kstr⟩⟩, .prim (.vstr "")),
     (⟨"B", [("form", "b")], true, ⟨false, .kint 64⟩⟩, .prim (.vint 0)),
     (⟨"C", [("form", "c")], true, ⟨false, .kstr⟩⟩, .prim (.vstr ""))]
    [(⟨"A", [("form", "a")], true, ⟨false, .kstr⟩⟩, .prim (.vstr "x")),
     (⟨"B", [("form", "b")], true, ⟨false, .kint 64⟩⟩, .prim (.vint 0)),
     (⟨"C", [("form", "c")], true, ⟨false, .kstr⟩⟩, .prim (.vstr ""))]
    (.wrapf "invalid int"
      (.base "strconv.ParseInt: parsing \"zz\": invalid syntax"))
    rfl

/-!
## The generic handler adapter (`handler.go`)

`Handler[RequestT, ResponseT].ServeHTTP` runs decode → invoke → encode,
delegating every failure to the configured `ErrorWriter` and stopping.
The configuration read from the request context (`Opts`: encoder plus
error writer) is the `PipelineCfg` record; whether `RequestT` (resp.
`ResponseT`) is the `None` sentinel is the type-level test
`any(req).(None)`, a fact of the instantiation, carried as a flag.  The
observable behaviour of one call is a `ServeTrace`: what decoding did
(`none` when skipped), what the typed handler returned (`none` when never
invoked), whether the encoder ran, and the error handed to the
`ErrorWriter` (`none` when no failure was written). -/

/-- One handler instantiation plus its per-request configuration. -/
structure PipelineCfg (Req Res : Type) where
  /-- `RequestT` is the `None` sentinel type. -/
  reqNone : Bool
  /-- `ResponseT` is the `None` sentinel type. -/
  resNone : Bool
  /-- The fresh zero value `var req RequestT`. -/
  zeroReq : Req
  /-- `opts.Encoder.Decode` into a fresh request value. -/
  decode : Request → Except GoError Req
  /-- The typed handler; its context carries the raw request `r`. -/
  handler : Request → Req → Except GoError Res
  /-- `opts.Encoder.Encode` of the response. -/
  encode : Res → Option GoError

/-- The observable outcome of one `ServeHTTP` call. -/
structure ServeTrace (Req Res : Type) where
  decoded : Option (Except GoError Req)
  invoked : Option (Except GoError Res)
  encodeRan : Bool
  written : Option GoError

/-- The invoke → encode tail of `ServeHTTP` (handler.go): handler errors
go to the `ErrorWriter` as-is; a `None` response skips encoding; an
encoder failure is wrapped with HTTP 500 and written. -/
def serveFromInvoke {Req Res : Type} (cfg : PipelineCfg Req Res)
    (r : Request) (req : Req) (decoded : Option (Except GoError Req)) :
    ServeTrace Req Res :=
  match cfg.handler r req with
  | .error e => ⟨decoded, some (.error e), false, some e⟩
  | .ok resp =>
    if cfg.resNone then ⟨decoded, some (.ok resp), false, none⟩
    else
      match cfg.encode resp with
      | some e => ⟨decoded, some (.ok resp), true, some (WrapHTTPError 500 e)⟩
      | none => ⟨decoded, some (.ok resp), true, none⟩

/-- `Handler.ServeHTTP` (handler.go:78-104): skip decoding when
`RequestT` is the `None` sentinel; otherwise decode into a fresh zero
request, and on failure write the error wrapped with HTTP 400 and stop. -/
def serveHTTP {Req Res : Type} (cfg : PipelineCfg Req Res) (r : Request) :
    ServeTrace Req Res :=
  if cfg.reqNone then serveFromInvoke cfg r cfg.zeroReq none
  else
    match cfg.decode r with
    | .error e => ⟨some (.error e), none, false, some (WrapHTTPError 400 e)⟩
    | .ok req => serveFromInvoke cfg r req (some (.ok req))

/-- C2: when the request type is not the `None` sentinel and the decoder
fails, `ServeHTTP` writes the error wrapped with HTTP 400 through the
`ErrorWriter` and terminates: the typed handler is never invoked and the
encoder never runs.  The 400 wrap defers to a status code the error
already carries.  When the request type is the sentinel, decoding is
skipped entirely. -/
theorem serveHTTP_decode_failure {Req Res : Type} (cfg : PipelineCfg Req Res)
    (r : Request) (e : GoError) (hn : cfg.reqNone = false)
    (hd : cfg.decode r = .error e) :
    serveHTTP cfg r
        = ⟨some (.error e), none, false, some (WrapHTTPError 400 e)⟩ ∧
    (findHTTPError e = none → ErrorHTTPStatus (WrapHTTPError 400 e) 0 = 400) ∧
    (∀ he, findHTTPError e = some he → WrapHTTPError 400 e = he) ∧
    (∀ cfg2 : PipelineCfg Req Res, ∀ r2 : Request, cfg2.reqNone = true →
      (serveHTTP cfg2 r2).decoded = none) := by
  refine ⟨?_, fun h => ?_, fun he h => ?_, fun cfg2 r2 h2 => ?_⟩
  · simp [serveHTTP, hn, hd]
  · simp [ErrorHTTPStatus, WrapHTTPError, h, findHTTPError, httpStatus]
  · simp [WrapHTTPError, h]
  · rw [serveHTTP, if_pos h2]
    unfold serveFromInvoke
    split
    · rfl
    · split
      · rfl
      · split
        · rfl
        · rfl

theorem serveHTTP_decode_failure_witness :
    serveHTTP (⟨false, false, (), fun _ => .error (.base "boom"),
        fun _ _ => .ok (), fun _ => none⟩ : PipelineCfg Unit Unit)
        ⟨"GET", none, []⟩
      = ⟨some (.error (.base "boom")), none, false,
          some (.wrapped 400 (.base "boom"))⟩ ∧
    ErrorHTTPStatus (GoError.wrapped 400 (.base "boom")) 0 = 400 ∧
    (serveHTTP (⟨true, false, (), fun _ => .error (.base "boom"),
        fun _ _ => .ok (), fun _ => none⟩ : PipelineCfg Unit Unit)
        ⟨"GET", none, []⟩).decoded = none :=
  ⟨(serveHTTP_decode_failure (⟨false, false, (), fun _ => .error (.base "boom"),
      fun _ _ => .ok (), fun _ => none⟩ : PipelineCfg Unit Unit)
      ⟨"GET", none, []⟩ (.base "boom") rfl rfl).1,
   (serveHTTP_decode_failure (⟨false, false, (), fun _ => .error (.base "boom"),
      fun _ _ => .ok (), fun _ => none⟩ : PipelineCfg Unit Unit)
      ⟨"GET", none, []⟩ (.base "boom") rfl rfl).2.1 rfl,
   (serveHTTP_decode_failure (⟨false, false, (), fun _ => .error (.base "boom"),
      fun _ _ => .ok (), fun _ => none⟩ : PipelineCfg Unit Unit)
      ⟨"GET", none, []⟩ (.base "boom") rfl rfl).2.2.2
     (⟨true, false, (), fun _ => .error (.base "boom"),
        fun _ _ => .ok (), fun _ => none⟩ : PipelineCfg Unit Unit)
     ⟨"GET", none, []⟩ rfl⟩

end Hrt
